import Mathlib

/-!
Shallow embedding of `src/socketserver.py`: a Socket.IO signaling server for
video meetings.  The server keeps two module-level dictionaries,

  meetings     : { meeting_code ↦ { "host_sid": sid, "participants": [sid, ...] } }
  active_users : { socket_id ↦ { "user_id": ..., "meeting_code": ..., "role": "host"|"participant" } }

plus the Socket.IO room registry (mutated through `sio.enter_room` /
`sio.leave_room`).  Event handlers read `data.get(...)` fields, which yield
`None` when absent; we model every such Python value as `Option String`
(`none` = Python `None`).  Dictionary keys can themselves be `None` (e.g.
`meetings[None]` after a `start_meeting` with no `meeting_code` field), so
dictionary keys are `Option String` as well; a real transport-assigned socket
id `sid : String` is looked up as `some sid`.

A handler either terminates normally or raises a Python `KeyError`
(`meetings[mc]` on a missing key).  We model the outcome as the final state,
the ordered list of `sio.emit` calls made before termination, and an `ok`
flag that is `false` exactly when the handler raises.  In every raising path
of the source, the raise happens before any mutation of the two registries
(only `sio.enter_room` may already have run), so the recorded state is the
exact state the Python process is left in — python-socketio catches and logs
handler exceptions, and the server keeps running on that state.
-/

namespace SocketServer

/-- Python value coming out of `data.get(...)`: a string or `None`. -/
abbrev PyStr := Option String

/-- A meeting registry value: `{"host_sid": sid, "participants": [...]}`.
`host_sid` is always the raw `sid` argument of `start_meeting`, hence a real
string; `participants` entries come from `data.get("requester_sid")` and can
be `None`. -/
structure Meeting where
  host_sid : String
  participants : List PyStr
deriving DecidableEq, Repr

/-- An `active_users` registry value:
`{"user_id": ..., "meeting_code": ..., "role": ...}`.  The only two strings
ever stored in `"role"` are `"host"` and `"participant"`. -/
inductive Role where
  | host
  | participant
deriving DecidableEq, Repr

structure UserData where
  user_id : PyStr
  meeting_code : PyStr
  role : Role
deriving DecidableEq, Repr

/-- The event payload dictionary: each handler reads these keys with
`data.get`, which returns `None` for an absent field. -/
structure Data where
  meeting_code : PyStr
  user_id : PyStr
  user_info : PyStr
  requester_sid : PyStr
  action : PyStr
  target_sid : PyStr
  payload : PyStr
deriving DecidableEq, Repr

/-- The all-`None` payload (every field absent). -/
def Data.empty : Data := ⟨none, none, none, none, none, none, none⟩

/-- Python `dict` modelled as an association list with unique keys kept by
construction (`updateD` removes the old binding). -/
abbrev Dict (α : Type) := List (PyStr × α)

def lookupD {α : Type} (l : Dict α) (k : PyStr) : Option α :=
  (l.find? (fun p => p.1 = k)).map (·.2)

def updateD {α : Type} (l : Dict α) (k : PyStr) (v : α) : Dict α :=
  (k, v) :: l.filter (fun p => ¬ p.1 = k)

def removeD {α : Type} (l : Dict α) (k : PyStr) : Dict α :=
  l.filter (fun p => ¬ p.1 = k)

/-- One `sio.emit(...)` call: either targeted (`to=`) or a room broadcast
(`room=`, optional `skip_sid=`).  The payload is the emitted dictionary as a
field list; `to`, `room` and `skip` record the raw Python values. -/
inductive Emit where
  | toSid (event : String) (payload : List (String × PyStr)) (target : PyStr)
  | toRoom (event : String) (payload : List (String × PyStr)) (room : PyStr) (skip : PyStr)
deriving DecidableEq, Repr

/-- Server state: the two module-level registries plus the Socket.IO room
registry (room name ↦ member sids). -/
structure SrvState where
  meetings : Dict Meeting
  active_users : Dict UserData
  rooms : Dict (List PyStr)
deriving DecidableEq, Repr

def SrvState.init : SrvState := ⟨[], [], []⟩

/-- Members of a Socket.IO room (empty if the room does not exist). -/
def roomMembers (s : SrvState) (room : PyStr) : List PyStr :=
  (lookupD s.rooms room).getD []

/-- `sio.enter_room(sid, room)`: adds the sid to the room (idempotent). -/
def enterRoom (r : Dict (List PyStr)) (room : PyStr) (sid : PyStr) : Dict (List PyStr) :=
  let ms := (lookupD r room).getD []
  if sid ∈ ms then r else updateD r room (ms ++ [sid])

/-- `sio.leave_room(sid, room)`: removes the sid from the room if the room
exists. -/
def leaveRoom (r : Dict (List PyStr)) (room : PyStr) (sid : PyStr) : Dict (List PyStr) :=
  match lookupD r room with
  | none => r
  | some ms => updateD r room (ms.filter (fun x => ¬ x = sid))

/-- Recipients of a room broadcast, resolved against a state: the room's
members minus the `skip_sid`. -/
def recipients (s : SrvState) (room : PyStr) (skip : PyStr) : List PyStr :=
  (roomMembers s room).filter (fun x => ¬ (skip ≠ none ∧ x = skip))

/-- Outcome of one handler invocation: final state, the ordered `sio.emit`
calls it performed, and `ok = false` iff it raised a `KeyError`. -/
structure Out where
  state : SrvState
  emits : List Emit
  ok : Bool
deriving DecidableEq, Repr

/-! ### The event handlers, one `def` per `@sio.event` of the source -/

/-- `disconnect(sid)` (src lines 26–46). -/
def disconnect (s : SrvState) (sid : String) : Out :=
  match lookupD s.active_users (some sid) with
  | none => ⟨s, [], true⟩
  | some user_data =>
    let mc := user_data.meeting_code
    match lookupD s.meetings mc with
    | some m =>
      if user_data.role = Role.host then
        ⟨{ s with meetings := removeD s.meetings mc,
                  active_users := removeD s.active_users (some sid) },
         [Emit.toRoom "meeting_ended" [] mc none], true⟩
      else
        let ps := if (some sid) ∈ m.participants
          then m.participants.eraseP (fun x => x = some sid)
          else m.participants
        ⟨{ s with meetings := updateD s.meetings mc { m with participants := ps },
                  active_users := removeD s.active_users (some sid) },
         [Emit.toRoom "participant_left" [("sid", some sid)] mc none], true⟩
    | none =>
      ⟨{ s with active_users := removeD s.active_users (some sid) }, [], true⟩

/-- `start_meeting(sid, data)` (src lines 49–60). -/
def start_meeting (s : SrvState) (sid : String) (data : Data) : Out :=
  let mc := data.meeting_code
  ⟨{ meetings := updateD s.meetings mc ⟨sid, []⟩,
     active_users := updateD s.active_users (some sid) ⟨data.user_id, mc, Role.host⟩,
     rooms := enterRoom s.rooms mc (some sid) },
   [Emit.toSid "meeting_started" [("status", some "success"), ("meeting_code", mc)] (some sid)],
   true⟩

/-- `request_join(sid, data)` (src lines 63–76). -/
def request_join (s : SrvState) (sid : String) (data : Data) : Out :=
  let mc := data.meeting_code
  match lookupD s.meetings mc with
  | none =>
    ⟨s, [Emit.toSid "join_error" [("message", some "Invalid meeting code")] (some sid)], true⟩
  | some m =>
    ⟨s, [Emit.toSid "join_request_received" [("sid", some sid), ("user_info", data.user_info)]
           (some m.host_sid),
        Emit.toSid "waiting_for_host" [("message", some "Waiting for host to let you in...")]
           (some sid)], true⟩

/-- `active_users.get(sid, {}).get("meeting_code")` (src line 83): the
sender's registered meeting code, `None` for an unregistered sender. -/
def senderMC (s : SrvState) (sid : String) : PyStr :=
  match lookupD s.active_users (some sid) with
  | some ud => ud.meeting_code
  | none => none

/-- `host_response(sid, data)` (src lines 78–94).  Note the source performs
no role check: `meeting_code` is `active_users.get(sid, {}).get("meeting_code")`,
i.e. `None` for an unregistered sender, and the `allow` branch indexes
`meetings[meeting_code]` unguarded — a `KeyError` when that code is not
registered (`ok = false`; `sio.enter_room` has already run at that point,
the registries are untouched). -/
def host_response (s : SrvState) (sid : String) (data : Data) : Out :=
  let requester_sid := data.requester_sid
  let mc := senderMC s sid
  if data.action = some "allow" then
    let rooms' := enterRoom s.rooms mc requester_sid
    match lookupD s.meetings mc with
    | none => ⟨{ s with rooms := rooms' }, [], false⟩
    | some m =>
      ⟨{ meetings := updateD s.meetings mc { m with participants := m.participants ++ [requester_sid] },
         active_users := updateD s.active_users requester_sid ⟨data.user_id, mc, Role.participant⟩,
         rooms := rooms' },
       [Emit.toSid "join_accepted" [("meeting_code", mc)] requester_sid,
        Emit.toRoom "participant_joined" [("sid", requester_sid)] mc requester_sid], true⟩
  else
    ⟨s, [Emit.toSid "join_denied" [("message", some "The host declined your request.")]
          requester_sid], true⟩

/-- `kick_participant(sid, data)` (src lines 97–109).  When the sender is a
registered host whose meeting code is no longer in `meetings` (possible after
`end_meeting`), `meetings[meeting_code]` raises a `KeyError` before any
mutation. -/
def kick_participant (s : SrvState) (sid : String) (data : Data) : Out :=
  let target_sid := data.target_sid
  match lookupD s.active_users (some sid) with
  | some user_data =>
    if user_data.role = Role.host then
      let mc := user_data.meeting_code
      match lookupD s.meetings mc with
      | none => ⟨s, [], false⟩
      | some m =>
        if target_sid ∈ m.participants then
          let m' : Meeting := { m with participants := m.participants.eraseP (fun x => x = target_sid) }
          ⟨{ s with
             meetings := updateD s.meetings mc m',
             rooms := leaveRoom s.rooms mc target_sid },
           [Emit.toSid "kicked_by_host" [] target_sid,
            Emit.toRoom "participant_left" [("sid", target_sid)] mc none], true⟩
        else ⟨s, [], true⟩
    else ⟨s, [], true⟩
  | none => ⟨s, [], true⟩

/-- `end_meeting(sid, data)` (src lines 111–119). -/
def end_meeting (s : SrvState) (sid : String) (_data : Data) : Out :=
  match lookupD s.active_users (some sid) with
  | some user_data =>
    if user_data.role = Role.host then
      let mc := user_data.meeting_code
      ⟨{ s with meetings := removeD s.meetings mc },
       [Emit.toRoom "meeting_ended" [] mc none], true⟩
    else ⟨s, [], true⟩
  | none => ⟨s, [], true⟩

/-- `webrtc_signal(sid, data)` (src lines 123–129): pure relay. -/
def webrtc_signal (s : SrvState) (sid : String) (data : Data) : Out :=
  ⟨s, [Emit.toSid "webrtc_signal" [("sender_sid", some sid), ("payload", data.payload)]
        data.target_sid], true⟩

/-- `connect(sid, environ, auth)` (src lines 21–24): no session state. -/
def connect (s : SrvState) (_sid : String) : Out := ⟨s, [], true⟩

/-! ### Inbound events and traces -/

inductive Event where
  | connect (sid : String)
  | disconnect (sid : String)
  | start_meeting (sid : String) (data : Data)
  | request_join (sid : String) (data : Data)
  | host_response (sid : String) (data : Data)
  | kick_participant (sid : String) (data : Data)
  | end_meeting (sid : String) (data : Data)
  | webrtc_signal (sid : String) (data : Data)
deriving DecidableEq, Repr

/-- Dispatch one inbound event to its handler. -/
def handle (s : SrvState) : Event → Out
  | .connect sid => connect s sid
  | .disconnect sid => disconnect s sid
  | .start_meeting sid data => start_meeting s sid data
  | .request_join sid data => request_join s sid data
  | .host_response sid data => host_response s sid data
  | .kick_participant sid data => kick_participant s sid data
  | .end_meeting sid data => end_meeting s sid data
  | .webrtc_signal sid data => webrtc_signal s sid data

/-- The state after an event (python-socketio catches handler exceptions, so
the server continues on the recorded state either way). -/
def step (s : SrvState) (e : Event) : SrvState := (handle s e).state

/-- Run a trace of inbound events. -/
def run (s : SrvState) (es : List Event) : SrvState := es.foldl step s

/-! ### Dictionary lemmas -/

theorem find?_key_filter_ne {α : Type} (l : Dict α) (k c : PyStr) (h : ¬ c = k) :
    (l.filter (fun p => ¬ p.1 = k)).find? (fun p => p.1 = c)
      = l.find? (fun p => p.1 = c) := by
  induction l with
  | nil => rfl
  | cons p t ih =>
    by_cases hk : p.1 = k
    · have hpc : ¬ p.1 = c := by
        intro hc
        exact h (hc ▸ hk)
      rw [List.filter_cons_of_neg (by simpa using hk),
          List.find?_cons_of_neg _ (by simpa using hpc)]
      exact ih
    · rw [List.filter_cons_of_pos (by simpa using hk)]
      by_cases hc : p.1 = c
      · rw [List.find?_cons_of_pos _ (by simpa using hc),
            List.find?_cons_of_pos _ (by simpa using hc)]
      · rw [List.find?_cons_of_neg _ (by simpa using hc),
            List.find?_cons_of_neg _ (by simpa using hc)]
        exact ih

theorem lookupD_updateD {α : Type} (l : Dict α) (k : PyStr) (v : α) (c : PyStr) :
    lookupD (updateD l k v) c = if c = k then some v else lookupD l c := by
  unfold lookupD updateD
  by_cases h : c = k
  · subst h
    rw [List.find?_cons_of_pos _ (by simp)]
    simp
  · rw [List.find?_cons_of_neg _ (by simp; intro hkc; exact h hkc.symm),
        find?_key_filter_ne l k c h, if_neg h]

theorem lookupD_removeD {α : Type} (l : Dict α) (k c : PyStr) :
    lookupD (removeD l k) c = if c = k then none else lookupD l c := by
  unfold lookupD removeD
  by_cases h : c = k
  · subst h
    rw [if_pos rfl]
    have : (l.filter (fun p => ¬ p.1 = c)).find? (fun p => p.1 = c) = none := by
      rw [List.find?_eq_none]
      intro p hp
      have := (List.mem_filter.mp hp).2
      simpa using this
    rw [this]
    rfl
  · rw [find?_key_filter_ne l k c h, if_neg h]

/-- Membership of the underlying pair for a successful lookup. -/
theorem mem_of_lookupD_eq_some {α : Type} {l : Dict α} {c : PyStr} {v : α}
    (h : lookupD l c = some v) : (c, v) ∈ l := by
  unfold lookupD at h
  cases hf : l.find? (fun p => p.1 = c) with
  | none => rw [hf] at h; cases h
  | some p =>
    rw [hf] at h
    have hp := List.find?_some hf
    have hm := List.mem_of_find?_eq_some hf
    have h1 : p.1 = c := by simpa using hp
    have h2 : p.2 = v := by simpa using h
    have : p = (c, v) := by
      cases p
      simp_all
    exact this ▸ hm

/-- "Every value of the dictionary satisfies `P`". -/
def dictAll {α : Type} (P : α → Prop) (l : Dict α) : Prop :=
  ∀ c v, lookupD l c = some v → P v

theorem dictAll_updateD {α : Type} {P : α → Prop} {l : Dict α} {k : PyStr} {v : α}
    (hl : dictAll P l) (hv : P v) : dictAll P (updateD l k v) := by
  intro c w hw
  rw [lookupD_updateD] at hw
  by_cases h : c = k
  · rw [if_pos h] at hw
    cases hw
    exact hv
  · rw [if_neg h] at hw
    exact hl c w hw

theorem dictAll_removeD {α : Type} {P : α → Prop} {l : Dict α} {k : PyStr}
    (hl : dictAll P l) : dictAll P (removeD l k) := by
  intro c w hw
  rw [lookupD_removeD] at hw
  by_cases h : c = k
  · rw [if_pos h] at hw
    cases hw
  · rw [if_neg h] at hw
    exact hl c w hw

/-- A `recipients` list with no `skip_sid` is the whole room. -/
theorem recipients_no_skip (s : SrvState) (room : PyStr) :
    recipients s room none = roomMembers s room := by
  simp [recipients]

/-- After `eraseP` of a `Nodup` list, the erased element is gone. -/
theorem not_mem_eraseP_of_nodup (a : PyStr) :
    ∀ l : List PyStr, l.Nodup → a ∉ l.eraseP (fun x => x = a) := by
  intro l
  induction l with
  | nil => intro _ h; cases h
  | cons b t ih =>
    intro hnd
    by_cases hb : b = a
    · rw [List.eraseP_cons_of_pos (by simpa using hb)]
      subst hb
      exact (List.nodup_cons.mp hnd).1
    · rw [List.eraseP_cons_of_neg (by simpa using hb)]
      intro hmem
      rcases List.mem_cons.mp hmem with h1 | h2
      · exact hb h1.symm
      · exact ih (List.nodup_cons.mp hnd).2 h2

/-- `leave_room` removes the sid from the room's member list. -/
theorem not_mem_leaveRoom (r : Dict (List PyStr)) (room x : PyStr) :
    x ∉ (lookupD (leaveRoom r room x) room).getD [] := by
  cases hr : lookupD r room with
  | none => simp [leaveRoom, hr]
  | some ms =>
    simp only [leaveRoom, hr, lookupD_updateD, if_pos rfl, Option.getD_some]
    intro hmem
    have := (List.mem_filter.mp hmem).2
    simp at this

/-! ### C1: malformed / stale references never raise — refuted by the code -/

/-- An `{"requester_sid": r, "action": "allow"}` payload. -/
def allowData (r : String) : Data := ⟨none, none, none, some r, some "allow", none, none⟩

/-- C1: the claim that every handler terminates normally on every payload is
false: `host_response` from a connection with no Connection Registry entry
and `action = "allow"` evaluates `meetings[None]` and raises a `KeyError`
(`ok = false`); only `sio.enter_room` has run, the registries are untouched. -/
theorem host_response_unregistered_raises :
    host_response SrvState.init "X" (allowData "R")
      = ⟨⟨[], [], [(none, [some "R"])]⟩, [], false⟩ := by
  decide

/-! ### C2: `host_response` from a non-host — refuted by the code -/

/-- A state with meeting "M" hosted by "H" with admitted participant "P". -/
def stateMHP : SrvState :=
  ⟨[(some "M", ⟨"H", [some "P"]⟩)],
   [(some "H", ⟨none, some "M", Role.host⟩), (some "P", ⟨none, some "M", Role.participant⟩)],
   [(some "M", [some "H", some "P"])]⟩

/-- C2: the claim that a non-host's `host_response` has zero observable
effects is false: the source has no role check, so participant "P" can admit
"Q" into the meeting — the Meeting Registry is mutated, the requester's
Connection Registry entry is created, and two events are emitted. -/
theorem host_response_no_role_check :
    lookupD stateMHP.active_users (some "P") = some ⟨none, some "M", Role.participant⟩ ∧
    host_response stateMHP "P" (allowData "Q") =
      ⟨⟨[(some "M", ⟨"H", [some "P", some "Q"]⟩)],
        [(some "Q", ⟨none, some "M", Role.participant⟩),
         (some "H", ⟨none, some "M", Role.host⟩),
         (some "P", ⟨none, some "M", Role.participant⟩)],
        [(some "M", [some "H", some "P", some "Q"])]⟩,
       [Emit.toSid "join_accepted" [("meeting_code", some "M")] (some "Q"),
        Emit.toRoom "participant_joined" [("sid", some "Q")] (some "M") (some "Q")],
       true⟩ := by
  constructor
  · decide
  · decide

/-! ### C6: disconnect is idempotent -/

/-- C6: for every state and connection, the first `disconnect` terminates
normally, and a second `disconnect` for the same connection is a complete
no-op: same state, no emitted event, no error. -/
theorem disconnect_idempotent (s : SrvState) (sid : String) :
    (disconnect s sid).ok = true ∧
    disconnect (disconnect s sid).state sid = ⟨(disconnect s sid).state, [], true⟩ := by
  have hnone : ∀ l : Dict UserData, lookupD (removeD l (some sid)) (some sid) = none := by
    intro l
    rw [lookupD_removeD, if_pos rfl]
  cases hu : lookupD s.active_users (some sid) with
  | none => exact ⟨by simp [disconnect, hu], by simp [disconnect, hu]⟩
  | some ud =>
    cases hm : lookupD s.meetings ud.meeting_code with
    | none =>
      refine ⟨by simp [disconnect, hu, hm], ?_⟩
      simp [disconnect, hu, hm, hnone]
    | some m =>
      by_cases hr : ud.role = Role.host
      · refine ⟨by simp [disconnect, hu, hm, hr], ?_⟩
        simp [disconnect, hu, hm, hr, hnone]
      · refine ⟨by simp [disconnect, hu, hm, hr], ?_⟩
        simp [disconnect, hu, hm, hr, hnone]

/-! ### C7: `request_join` with an unknown meeting code -/

/-- C7: a `request_join` whose meeting code has no Meeting Registry entry
emits exactly one `join_error` targeted at the requester (nothing to anyone
else), leaves the state completely unchanged, and does not raise. -/
theorem request_join_unknown_code (s : SrvState) (sid : String) (data : Data)
    (h : lookupD s.meetings data.meeting_code = none) :
    request_join s sid data =
      ⟨s, [Emit.toSid "join_error" [("message", some "Invalid meeting code")] (some sid)],
       true⟩ := by
  simp [request_join, h]

theorem request_join_unknown_code_witness :
    lookupD SrvState.init.meetings Data.empty.meeting_code = none ∧
    request_join SrvState.init "A" Data.empty =
      ⟨SrvState.init,
       [Emit.toSid "join_error" [("message", some "Invalid meeting code")] (some "A")],
       true⟩ :=
  ⟨rfl, request_join_unknown_code SrvState.init "A" Data.empty rfl⟩

/-! ### C10: disconnect of a connection whose meeting is gone -/

/-- C10: if a connection's registry entry names a meeting code absent from
the Meeting Registry, `disconnect` deletes that entry, emits no event at all,
and changes nothing else. -/
theorem disconnect_stale_meeting (s : SrvState) (sid : String) (ud : UserData)
    (hu : lookupD s.active_users (some sid) = some ud)
    (hm : lookupD s.meetings ud.meeting_code = none) :
    disconnect s sid =
      ⟨{ s with active_users := removeD s.active_users (some sid) }, [], true⟩ := by
  simp [disconnect, hu, hm]

/-- A participant of meeting "M" while "M" is absent from the registry. -/
def staleState : SrvState :=
  ⟨[], [(some "P", ⟨none, some "M", Role.participant⟩)], [(some "M", [some "P"])]⟩

theorem disconnect_stale_meeting_witness :
    lookupD staleState.active_users (some "P") = some ⟨none, some "M", Role.participant⟩ ∧
    lookupD staleState.meetings (some "M") = none ∧
    disconnect staleState "P" =
      ⟨{ staleState with active_users := removeD staleState.active_users (some "P") },
       [], true⟩ :=
  ⟨by decide, by decide,
   disconnect_stale_meeting staleState "P" ⟨none, some "M", Role.participant⟩
     (by decide) (by decide)⟩

/-! ### C8: host disconnect ends the meeting; the code can be reused -/

/-- C8: when the host of an existing meeting disconnects, a single
`meeting_ended` is broadcast to the meeting's room — reaching every
participant (each room member receives a no-skip room broadcast) — the
meeting's registry entry is deleted, and a subsequent `start_meeting` with
the same code succeeds and creates a fresh meeting with the new caller as
host and an empty participants list. -/
theorem host_disconnect_ends_meeting (s : SrvState) (hSid : String) (uid mc : PyStr)
    (m : Meeting)
    (hu : lookupD s.active_users (some hSid) = some ⟨uid, mc, Role.host⟩)
    (hm : lookupD s.meetings mc = some m)
    (hroom : ∀ p ∈ m.participants, p ∈ roomMembers s mc) :
    disconnect s hSid =
      ⟨{ s with meetings := removeD s.meetings mc,
                active_users := removeD s.active_users (some hSid) },
       [Emit.toRoom "meeting_ended" [] mc none], true⟩ ∧
    lookupD (disconnect s hSid).state.meetings mc = none ∧
    (∀ p ∈ m.participants, p ∈ recipients s mc none) ∧
    (∀ (sid' : String) (d : Data), d.meeting_code = mc →
       (start_meeting (disconnect s hSid).state sid' d).ok = true ∧
       lookupD (start_meeting (disconnect s hSid).state sid' d).state.meetings mc
         = some ⟨sid', []⟩) := by
  have hd : disconnect s hSid =
      ⟨{ s with meetings := removeD s.meetings mc,
                active_users := removeD s.active_users (some hSid) },
       [Emit.toRoom "meeting_ended" [] mc none], true⟩ := by
    simp [disconnect, hu, hm]
  refine ⟨hd, ?_, ?_, ?_⟩
  · rw [hd]
    simp [lookupD_removeD]
  · intro p hp
    rw [recipients_no_skip]
    exact hroom p hp
  · intro sid' d hdmc
    rw [hd]
    constructor
    · rfl
    · simp [start_meeting, hdmc, lookupD_updateD]

/-- The trace: `H` starts meeting "ABC", then admits `P1` and `P2`. -/
def trABC : List Event :=
  [Event.start_meeting "H" ⟨some "ABC", none, none, none, none, none, none⟩,
   Event.host_response "H" (allowData "P1"),
   Event.host_response "H" (allowData "P2")]

/-- The state after `start_meeting H "ABC"` and two admissions `P1`, `P2`. -/
def sABC : SrvState := run SrvState.init trABC

theorem host_disconnect_ends_meeting_witness :
    lookupD sABC.active_users (some "H") = some ⟨none, some "ABC", Role.host⟩ ∧
    lookupD sABC.meetings (some "ABC") = some ⟨"H", [some "P1", some "P2"]⟩ ∧
    (∀ p ∈ (Meeting.mk "H" [some "P1", some "P2"]).participants,
       p ∈ roomMembers sABC (some "ABC")) ∧
    disconnect sABC "H" =
      ⟨{ sABC with meetings := removeD sABC.meetings (some "ABC"),
                   active_users := removeD sABC.active_users (some "H") },
       [Emit.toRoom "meeting_ended" [] (some "ABC") none], true⟩ :=
  ⟨by decide, by decide, by decide,
   (host_disconnect_ends_meeting sABC "H" none (some "ABC")
      ⟨"H", [some "P1", some "P2"]⟩ (by decide) (by decide) (by decide)).1⟩

/-! ### C9: kick removes the target but leaves its registry entry alone -/

/-- C9: when a host kicks a connection currently in its meeting's
participants (a duplicate-free list, per the spec's set reading), the target
receives `kicked_by_host`, a `participant_left` broadcast goes to the room
with the target already removed from it, the target is gone from the
participants list, and the target's own Connection Registry entry — indeed
the whole `active_users` registry — is completely unchanged. -/
theorem kick_removes_target (s : SrvState) (k : String) (data : Data) (uid mc : PyStr)
    (m : Meeting)
    (hu : lookupD s.active_users (some k) = some ⟨uid, mc, Role.host⟩)
    (hm : lookupD s.meetings mc = some m)
    (ht : data.target_sid ∈ m.participants)
    (hnd : m.participants.Nodup) :
    kick_participant s k data =
      ⟨{ s with meetings := updateD s.meetings mc
                  ⟨m.host_sid, m.participants.eraseP (fun x => x = data.target_sid)⟩,
                rooms := leaveRoom s.rooms mc data.target_sid },
       [Emit.toSid "kicked_by_host" [] data.target_sid,
        Emit.toRoom "participant_left" [("sid", data.target_sid)] mc none], true⟩ ∧
    data.target_sid ∉ m.participants.eraseP (fun x => x = data.target_sid) ∧
    (kick_participant s k data).state.active_users = s.active_users ∧
    lookupD (kick_participant s k data).state.active_users data.target_sid
      = lookupD s.active_users data.target_sid ∧
    data.target_sid ∉ roomMembers (kick_participant s k data).state mc := by
  have hk : kick_participant s k data =
      ⟨{ s with meetings := updateD s.meetings mc
                  ⟨m.host_sid, m.participants.eraseP (fun x => x = data.target_sid)⟩,
                rooms := leaveRoom s.rooms mc data.target_sid },
       [Emit.toSid "kicked_by_host" [] data.target_sid,
        Emit.toRoom "participant_left" [("sid", data.target_sid)] mc none], true⟩ := by
    simp [kick_participant, hu, hm, ht]
  refine ⟨hk, not_mem_eraseP_of_nodup _ _ hnd, ?_, ?_, ?_⟩
  · rw [hk]
  · rw [hk]
  · rw [hk]
    exact not_mem_leaveRoom s.rooms mc data.target_sid

theorem kick_removes_target_witness :
    lookupD sABC.active_users (some "H") = some ⟨none, some "ABC", Role.host⟩ ∧
    lookupD sABC.meetings (some "ABC") = some ⟨"H", [some "P1", some "P2"]⟩ ∧
    (some "P1") ∈ (Meeting.mk "H" [some "P1", some "P2"]).participants ∧
    (Meeting.mk "H" [some "P1", some "P2"]).participants.Nodup ∧
    lookupD (kick_participant sABC "H"
        ⟨none, none, none, none, none, some "P1", none⟩).state.active_users (some "P1")
      = lookupD sABC.active_users (some "P1") :=
  ⟨by decide, by decide, by decide, by decide,
   (kick_removes_target sABC "H" ⟨none, none, none, none, none, some "P1", none⟩
      none (some "ABC") ⟨"H", [some "P1", some "P2"]⟩
      (by decide) (by decide) (by decide) (by decide)).2.2.2.1⟩

/-! ### Reachability invariants (C3, C4, C5)

The spec states registry invariants "for all sequences of inbound events".
The code violates each of them on adversarial payloads (counterexamples
below); the amended statements restrict the traces by the exact condition
each counterexample exploits, via a boolean guard evaluated at each step. -/

/-- `x` is a member of meeting `m`, as its host or as a participant. -/
def memberOfMeeting (x : PyStr) (m : Meeting) : Prop :=
  x = some m.host_sid ∨ x ∈ m.participants

/-- Boolean version of `memberOfMeeting`. -/
def membB (x : PyStr) (m : Meeting) : Bool :=
  decide (x = some m.host_sid) || decide (x ∈ m.participants)

theorem membB_iff (x : PyStr) (m : Meeting) :
    membB x m = true ↔ memberOfMeeting x m := by
  simp [membB, memberOfMeeting]

/-- `x` is a member of some meeting whose code differs from `c`. -/
def memberElsewhereB (s : SrvState) (x : PyStr) (c : PyStr) : Bool :=
  s.meetings.any (fun p => decide (¬ p.1 = c) && membB x p.2)

theorem not_memberElsewhere {s : SrvState} {x c : PyStr}
    (h : memberElsewhereB s x c = false) {c' : PyStr} {m : Meeting}
    (hne : ¬ c' = c) (hl : lookupD s.meetings c' = some m) :
    ¬ memberOfMeeting x m := by
  intro hmem
  have hany : s.meetings.any (fun p => decide (¬ p.1 = c) && membB x p.2) = true := by
    rw [List.any_eq_true]
    exact ⟨(c', m), mem_of_lookupD_eq_some hl,
      by simp [hne, (membB_iff x m).mpr hmem]⟩
  unfold memberElsewhereB at h
  rw [h] at hany
  cases hany

/-- C3's invariant: no meeting's participants list contains the meeting's
own host identifier. -/
def hostNotParticipant (s : SrvState) : Prop :=
  dictAll (fun m => ¬ some m.host_sid ∈ m.participants) s.meetings

/-- C5's invariant: every meeting's participants list is duplicate-free. -/
def participantsNodup (s : SrvState) : Prop :=
  dictAll (fun m => m.participants.Nodup) s.meetings

/-- C4's invariant on a meetings dictionary: a connection is a member of at
most one meeting. -/
def inOneD (l : Dict Meeting) : Prop :=
  ∀ (x c₁ c₂ : PyStr) (m₁ m₂ : Meeting),
    lookupD l c₁ = some m₁ → lookupD l c₂ = some m₂ →
    memberOfMeeting x m₁ → memberOfMeeting x m₂ → c₁ = c₂

def inOneMeeting (s : SrvState) : Prop := inOneD s.meetings

/-- An `allow` host response whose requester is the responder's meeting's
own host — the payload C3's counterexample exploits. -/
def selfAdmission (s : SrvState) (sid : String) (data : Data) : Bool :=
  decide (data.action = some "allow") &&
    (match lookupD s.meetings (senderMC s sid) with
     | some m => decide (data.requester_sid = some m.host_sid)
     | none => false)

/-- An `allow` host response whose requester is already in the meeting's
participants list — the payload C5's counterexample exploits. -/
def readmission (s : SrvState) (sid : String) (data : Data) : Bool :=
  decide (data.action = some "allow") &&
    (match lookupD s.meetings (senderMC s sid) with
     | some m => decide (data.requester_sid ∈ m.participants)
     | none => false)

def good3 (s : SrvState) : Event → Bool
  | .host_response sid data => !(selfAdmission s sid data)
  | _ => true

def good4 (s : SrvState) : Event → Bool
  | .start_meeting sid data => !(memberElsewhereB s (some sid) data.meeting_code)
  | .host_response sid data =>
      !(decide (data.action = some "allow") &&
        memberElsewhereB s data.requester_sid (senderMC s sid))
  | _ => true

def good5 (s : SrvState) : Event → Bool
  | .host_response sid data => !(readmission s sid data)
  | _ => true

/-- A trace all of whose steps satisfy the guard `g` in the state where they
execute. -/
def goodTrace (g : SrvState → Event → Bool) : SrvState → List Event → Bool
  | _, [] => true
  | s, e :: es => g s e && goodTrace g (step s e) es

theorem step_request_join_state (s : SrvState) (sid : String) (d : Data) :
    step s (.request_join sid d) = s := by
  simp only [step, handle, request_join]
  cases lookupD s.meetings d.meeting_code <;> rfl

/-- Generic per-meeting invariant preservation: `P` holds of every meeting
after a step, provided `P` is closed under shrinking the participants list,
holds of fresh meetings, and is preserved by the `allow` admission the step
may perform. -/
theorem dictAll_step (P : Meeting → Prop) (s : SrvState) (e : Event)
    (hall : dictAll P s.meetings)
    (hshrink : ∀ (m : Meeting) (ps : List PyStr),
      ps.Sublist m.participants → P m → P (Meeting.mk m.host_sid ps))
    (hstart : ∀ sid : String, P (Meeting.mk sid []))
    (hallow : ∀ (sid : String) (data : Data) (m : Meeting),
      e = .host_response sid data → data.action = some "allow" →
      lookupD s.meetings (senderMC s sid) = some m → P m →
      P (Meeting.mk m.host_sid (m.participants ++ [data.requester_sid]))) :
    dictAll P (step s e).meetings := by
  cases e with
  | connect sid => exact hall
  | webrtc_signal sid d => exact hall
  | request_join sid d => rw [step_request_join_state]; exact hall
  | disconnect sid =>
    cases hu : lookupD s.active_users (some sid) with
    | none => simp only [step, handle, disconnect, hu]; exact hall
    | some ud =>
      cases hm : lookupD s.meetings ud.meeting_code with
      | none => simp only [step, handle, disconnect, hu, hm]; exact hall
      | some m =>
        by_cases hr : ud.role = Role.host
        · simp only [step, handle, disconnect, hu, hm, if_pos hr]
          exact dictAll_removeD hall
        · simp only [step, handle, disconnect, hu, hm, if_neg hr]
          apply dictAll_updateD hall
          by_cases hmem : (some sid) ∈ m.participants
          · rw [if_pos hmem]
            exact hshrink m _ (List.eraseP_sublist _) (hall _ _ hm)
          · rw [if_neg hmem]
            exact hshrink m _ (List.Sublist.refl _) (hall _ _ hm)
  | start_meeting sid d =>
    simp only [step, handle, start_meeting]
    exact dictAll_updateD hall (hstart sid)
  | host_response sid d =>
    by_cases hact : d.action = some "allow"
    · cases hm : lookupD s.meetings (senderMC s sid) with
      | none => simp only [step, handle, host_response, if_pos hact, hm]; exact hall
      | some m =>
        simp only [step, handle, host_response, if_pos hact, hm]
        exact dictAll_updateD hall (hallow sid d m rfl hact hm (hall _ _ hm))
    · simp only [step, handle, host_response, if_neg hact]
      exact hall
  | kick_participant sid d =>
    cases hu : lookupD s.active_users (some sid) with
    | none => simp only [step, handle, kick_participant, hu]; exact hall
    | some ud =>
      by_cases hr : ud.role = Role.host
      · cases hm : lookupD s.meetings ud.meeting_code with
        | none => simp only [step, handle, kick_participant, hu, hm, if_pos hr]; exact hall
        | some m =>
          by_cases ht : d.target_sid ∈ m.participants
          · simp only [step, handle, kick_participant, hu, hm, if_pos hr, if_pos ht]
            exact dictAll_updateD hall (hshrink m _ (List.eraseP_sublist _) (hall _ _ hm))
          · simp only [step, handle, kick_participant, hu, hm, if_pos hr, if_neg ht]
            exact hall
      · simp only [step, handle, kick_participant, hu, if_neg hr]
        exact hall
  | end_meeting sid d =>
    cases hu : lookupD s.active_users (some sid) with
    | none => simp only [step, handle, end_meeting, hu]; exact hall
    | some ud =>
      by_cases hr : ud.role = Role.host
      · simp only [step, handle, end_meeting, hu, if_pos hr]
        exact dictAll_removeD hall
      · simp only [step, handle, end_meeting, hu, if_neg hr]
        exact hall

theorem memberOfMeeting_shrink {x : PyStr} {m : Meeting} {ps : List PyStr}
    (hsub : ps.Sublist m.participants) :
    memberOfMeeting x (Meeting.mk m.host_sid ps) → memberOfMeeting x m := by
  intro h
  rcases h with h1 | h2
  · exact Or.inl h1
  · exact Or.inr (hsub.mem h2)

/-! ### C3: the host never appears in its own participants list -/

theorem hostNot_step (s : SrvState) (e : Event)
    (h : hostNotParticipant s) (hg : good3 s e = true) :
    hostNotParticipant (step s e) := by
  apply dictAll_step _ _ _ h
  · intro m ps hsub hm hmem
    exact hm (hsub.mem hmem)
  · intro sid hmem
    cases hmem
  · intro sid data m he hact hm hPm hmem
    rcases List.mem_append.mp hmem with h1 | h2
    · exact hPm h1
    · have hreq : data.requester_sid = some m.host_sid := by
        rw [List.mem_singleton] at h2
        exact h2.symm
      subst he
      have hsa : selfAdmission s sid data = false := by
        simp only [good3, Bool.not_eq_true'] at hg
        exact hg
      simp [selfAdmission, hm, hact, hreq] at hsa

theorem hostNot_run (s : SrvState) (es : List Event)
    (h : hostNotParticipant s) (hg : goodTrace good3 s es = true) :
    hostNotParticipant (run s es) := by
  induction es generalizing s with
  | nil => exact h
  | cons e t ih =>
    simp only [goodTrace, Bool.and_eq_true] at hg
    exact ih (step s e) (hostNot_step s e h hg.1) hg.2

theorem hostNotParticipant_init : hostNotParticipant SrvState.init := by
  intro c v hv
  simp [SrvState.init, lookupD] at hv

/-- C3 (amended): in every state reachable from empty registries by a trace
in which no `host_response` names the responding connection's meeting's own
host as the `allow`ed requester, no meeting's participants list contains
that meeting's host identifier.  (The unrestricted claim is refuted by
`host_in_own_participants_cex`.) -/
theorem host_never_in_own_participants (es : List Event)
    (hg : goodTrace good3 SrvState.init es = true) :
    hostNotParticipant (run SrvState.init es) :=
  hostNot_run SrvState.init es hostNotParticipant_init hg

/-- Host "H" approves its own socket id as a requester. -/
def trSelfAdmit : List Event :=
  [Event.start_meeting "H" ⟨some "M", none, none, none, none, none, none⟩,
   Event.host_response "H" (allowData "H")]

/-- C3 counterexample: after `start_meeting(H, "M")` followed by
`host_response(H, {requester_sid: H, action: "allow"})` — two inbound events
from the empty registries — meeting "M" has `host_sid = "H"` and
`participants = ["H"]`: the claimed invariant is false. -/
theorem host_in_own_participants_cex :
    ¬ hostNotParticipant (run SrvState.init trSelfAdmit) := by
  intro h
  exact h (some "M") ⟨"H", [some "H"]⟩ (by decide) (by decide)

theorem host_never_in_own_participants_witness :
    goodTrace good3 SrvState.init trABC = true ∧
    hostNotParticipant (run SrvState.init trABC) :=
  ⟨by decide, host_never_in_own_participants trABC (by decide)⟩

/-! ### C4: a connection belongs to at most one meeting -/

theorem inOneD_removeD {l : Dict Meeting} {k : PyStr} (h : inOneD l) :
    inOneD (removeD l k) := by
  intro x c₁ c₂ m₁ m₂ h₁ h₂ hx₁ hx₂
  rw [lookupD_removeD] at h₁ h₂
  by_cases e₁ : c₁ = k
  · rw [if_pos e₁] at h₁
    cases h₁
  · rw [if_neg e₁] at h₁
    by_cases e₂ : c₂ = k
    · rw [if_pos e₂] at h₂
      cases h₂
    · rw [if_neg e₂] at h₂
      exact h x c₁ c₂ m₁ m₂ h₁ h₂ hx₁ hx₂

theorem inOneD_updateD {l : Dict Meeting} {k : PyStr} {v : Meeting} (h : inOneD l)
    (hnew : ∀ x, memberOfMeeting x v →
      ∀ c m, ¬ c = k → lookupD l c = some m → ¬ memberOfMeeting x m) :
    inOneD (updateD l k v) := by
  intro x c₁ c₂ m₁ m₂ h₁ h₂ hx₁ hx₂
  rw [lookupD_updateD] at h₁ h₂
  by_cases e₁ : c₁ = k <;> by_cases e₂ : c₂ = k
  · rw [e₁, e₂]
  · rw [if_pos e₁] at h₁
    rw [if_neg e₂] at h₂
    have hv : memberOfMeeting x v := by
      rw [Option.some.inj h₁]
      exact hx₁
    exact absurd hx₂ (hnew x hv c₂ m₂ e₂ h₂)
  · rw [if_neg e₁] at h₁
    rw [if_pos e₂] at h₂
    have hv : memberOfMeeting x v := by
      rw [Option.some.inj h₂]
      exact hx₂
    exact absurd hx₁ (hnew x hv c₁ m₁ e₁ h₁)
  · rw [if_neg e₁] at h₁
    rw [if_neg e₂] at h₂
    exact h x c₁ c₂ m₁ m₂ h₁ h₂ hx₁ hx₂

theorem inOne_step (s : SrvState) (e : Event)
    (h : inOneMeeting s) (hg : good4 s e = true) : inOneMeeting (step s e) := by
  cases e with
  | connect sid => exact h
  | webrtc_signal sid d => exact h
  | request_join sid d =>
    rw [inOneMeeting, step_request_join_state]
    exact h
  | disconnect sid =>
    cases hu : lookupD s.active_users (some sid) with
    | none => simp only [inOneMeeting, step, handle, disconnect, hu]; exact h
    | some ud =>
      cases hm : lookupD s.meetings ud.meeting_code with
      | none => simp only [inOneMeeting, step, handle, disconnect, hu, hm]; exact h
      | some m =>
        by_cases hr : ud.role = Role.host
        · simp only [inOneMeeting, step, handle, disconnect, hu, hm, if_pos hr]
          exact inOneD_removeD h
        · simp only [inOneMeeting, step, handle, disconnect, hu, hm, if_neg hr]
          apply inOneD_updateD h
          intro x hxv c m' hne hlc hmem
          have hxm : memberOfMeeting x m := by
            by_cases hin : (some sid) ∈ m.participants
            · rw [if_pos hin] at hxv
              exact memberOfMeeting_shrink (List.eraseP_sublist _) hxv
            · rw [if_neg hin] at hxv
              exact memberOfMeeting_shrink (List.Sublist.refl _) hxv
          exact hne (h x ud.meeting_code c m m' hm hlc hxm hmem).symm
  | start_meeting sid d =>
    simp only [inOneMeeting, step, handle, start_meeting]
    apply inOneD_updateD h
    intro x hxv c m hne hlc hmem
    have hx : x = some sid := by
      rcases hxv with h1 | h2
      · exact h1
      · cases h2
    have hg' : memberElsewhereB s (some sid) d.meeting_code = false := by
      simp only [good4, Bool.not_eq_true'] at hg
      exact hg
    exact not_memberElsewhere hg' hne hlc (hx ▸ hmem)
  | host_response sid d =>
    by_cases hact : d.action = some "allow"
    · cases hm : lookupD s.meetings (senderMC s sid) with
      | none =>
        simp only [inOneMeeting, step, handle, host_response, if_pos hact, hm]
        exact h
      | some m =>
        simp only [inOneMeeting, step, handle, host_response, if_pos hact, hm]
        apply inOneD_updateD h
        intro x hxv c m' hne hlc hmem
        have hg' : memberElsewhereB s d.requester_sid (senderMC s sid) = false := by
          simp only [good4, hact, decide_eq_true_eq, Bool.not_eq_true'] at hg
          simpa using hg
        rcases hxv with h1 | h2
        · exact hne (h x (senderMC s sid) c m m' hm hlc (Or.inl h1) hmem).symm
        · rcases List.mem_append.mp h2 with h3 | h4
          · exact hne (h x (senderMC s sid) c m m' hm hlc (Or.inr h3) hmem).symm
          · rw [List.mem_singleton] at h4
            subst h4
            exact not_memberElsewhere hg' hne hlc hmem
    · simp only [inOneMeeting, step, handle, host_response, if_neg hact]
      exact h
  | kick_participant sid d =>
    cases hu : lookupD s.active_users (some sid) with
    | none => simp only [inOneMeeting, step, handle, kick_participant, hu]; exact h
    | some ud =>
      by_cases hr : ud.role = Role.host
      · cases hm : lookupD s.meetings ud.meeting_code with
        | none =>
          simp only [inOneMeeting, step, handle, kick_participant, hu, hm, if_pos hr]
          exact h
        | some m =>
          by_cases ht : d.target_sid ∈ m.participants
          · simp only [inOneMeeting, step, handle, kick_participant, hu, hm, if_pos hr,
              if_pos ht]
            apply inOneD_updateD h
            intro x hxv c m' hne hlc hmem
            have hxm : memberOfMeeting x m :=
              memberOfMeeting_shrink (List.eraseP_sublist _) hxv
            exact hne (h x ud.meeting_code c m m' hm hlc hxm hmem).symm
          · simp only [inOneMeeting, step, handle, kick_participant, hu, hm, if_pos hr,
              if_neg ht]
            exact h
      · simp only [inOneMeeting, step, handle, kick_participant, hu, if_neg hr]
        exact h
  | end_meeting sid d =>
    cases hu : lookupD s.active_users (some sid) with
    | none => simp only [inOneMeeting, step, handle, end_meeting, hu]; exact h
    | some ud =>
      by_cases hr : ud.role = Role.host
      · simp only [inOneMeeting, step, handle, end_meeting, hu, if_pos hr]
        exact inOneD_removeD h
      · simp only [inOneMeeting, step, handle, end_meeting, hu, if_neg hr]
        exact h

theorem inOne_run (s : SrvState) (es : List Event)
    (h : inOneMeeting s) (hg : goodTrace good4 s es = true) :
    inOneMeeting (run s es) := by
  induction es generalizing s with
  | nil => exact h
  | cons e t ih =>
    simp only [goodTrace, Bool.and_eq_true] at hg
    exact ih (step s e) (inOne_step s e h hg.1) hg.2

theorem inOneMeeting_init : inOneMeeting SrvState.init := by
  intro x c₁ c₂ m₁ m₂ h₁ h₂ hx₁ hx₂
  simp [SrvState.init, lookupD] at h₁

/-- C4 (amended): in every state reachable from empty registries by a trace
in which every `start_meeting` caller and every `allow`ed requester is not
currently a member of a meeting under a different code, each connection is a
member (host or participant) of at most one registered meeting.  (The
unrestricted claim is refuted by `connection_in_two_meetings_cex`.) -/
theorem connection_in_at_most_one_meeting (es : List Event)
    (hg : goodTrace good4 SrvState.init es = true) :
    inOneMeeting (run SrvState.init es) :=
  inOne_run SrvState.init es inOneMeeting_init hg

/-- "H" starts meeting "A", then also starts meeting "B". -/
def trTwoMeetings : List Event :=
  [Event.start_meeting "H" ⟨some "A", none, none, none, none, none, none⟩,
   Event.start_meeting "H" ⟨some "B", none, none, none, none, none, none⟩]

/-- C4 counterexample: after two `start_meeting` events from the same
connection "H" with codes "A" and "B" — both reachable from empty
registries — "H" is simultaneously the host of two registered meetings:
the claimed invariant is false. -/
theorem connection_in_two_meetings_cex :
    ¬ inOneMeeting (run SrvState.init trTwoMeetings) := by
  intro h
  have h2 := h (some "H") (some "A") (some "B") ⟨"H", []⟩ ⟨"H", []⟩
    (by decide) (by decide) (Or.inl rfl) (Or.inl rfl)
  exact absurd h2 (by decide)

theorem connection_in_at_most_one_meeting_witness :
    goodTrace good4 SrvState.init trABC = true ∧
    inOneMeeting (run SrvState.init trABC) :=
  ⟨by decide, connection_in_at_most_one_meeting trABC (by decide)⟩

/-! ### C5: participants lists are duplicate-free -/

theorem nodup_step (s : SrvState) (e : Event)
    (h : participantsNodup s) (hg : good5 s e = true) :
    participantsNodup (step s e) := by
  apply dictAll_step _ _ _ h
  · intro m ps hsub hnd
    exact List.Sublist.nodup hsub hnd
  · intro sid
    exact List.nodup_nil
  · intro sid data m he hact hm hnd
    subst he
    have hreq : ¬ data.requester_sid ∈ m.participants := by
      have hra : readmission s sid data = false := by
        simp only [good5, Bool.not_eq_true'] at hg
        exact hg
      simp [readmission, hm, hact] at hra
      exact hra
    show (m.participants ++ [data.requester_sid]).Nodup
    rw [List.nodup_append]
    refine ⟨hnd, List.nodup_singleton _, ?_⟩
    intro a ha hb
    rw [List.mem_singleton] at hb
    subst hb
    exact hreq ha

theorem nodup_run (s : SrvState) (es : List Event)
    (h : participantsNodup s) (hg : goodTrace good5 s es = true) :
    participantsNodup (run s es) := by
  induction es generalizing s with
  | nil => exact h
  | cons e t ih =>
    simp only [goodTrace, Bool.and_eq_true] at hg
    exact ih (step s e) (nodup_step s e h hg.1) hg.2

theorem participantsNodup_init : participantsNodup SrvState.init := by
  intro c v hv
  simp [SrvState.init, lookupD] at hv

/-- C5 (amended): in every state reachable from empty registries by a trace
in which no `host_response` `allow`s a requester that is already in the
responder's meeting's participants list, every meeting's participants list
is duplicate-free.  (The unrestricted claim is refuted by
`duplicate_participant_cex`.) -/
theorem participants_no_duplicates (es : List Event)
    (hg : goodTrace good5 SrvState.init es = true) :
    participantsNodup (run SrvState.init es) :=
  nodup_run SrvState.init es participantsNodup_init hg

/-- Host "H" approves requester "R" twice in a row. -/
def trReadmit : List Event :=
  [Event.start_meeting "H" ⟨some "M", none, none, none, none, none, none⟩,
   Event.host_response "H" (allowData "R"),
   Event.host_response "H" (allowData "R")]

/-- C5 counterexample: after `start_meeting(H, "M")` and two identical
`host_response(H, {requester_sid: R, action: "allow"})` events, meeting "M"
has `participants = ["R", "R"]` — a duplicate entry: the claimed invariant
is false. -/
theorem duplicate_participant_cex :
    ¬ participantsNodup (run SrvState.init trReadmit) := by
  intro h
  exact absurd (h (some "M") ⟨"H", [some "R", some "R"]⟩ (by decide)) (by decide)

theorem participants_no_duplicates_witness :
    goodTrace good5 SrvState.init trABC = true ∧
    participantsNodup (run SrvState.init trABC) :=
  ⟨by decide, participants_no_duplicates trABC (by decide)⟩

end SocketServer
